import Mathlib

/-! Contact form validation and submission (`script.js`, section 6).

A shallow embedding of the form handling code of the portfolio script:
`isValidEmail`, `showError`, `clearError`, `validateForm`, the submit handler
and the three blur handlers, together with the parts of the host environment
they use (string trimming, the regular expression matcher, class lists, the
timer queue and the console).
-/

namespace Portfolio

/-! ## JavaScript strings -/

/-- A JavaScript string is a sequence of UTF-16 code units. -/
abbrev JSString := List Nat

/-- The UTF-16 code units of one Unicode scalar value. -/
def charUnits (c : Char) : List Nat :=
  if c.toNat < 65536 then [c.toNat]
  else [55296 + (c.toNat - 65536) / 1024, 56320 + (c.toNat - 65536) % 1024]

/-- The JavaScript string denoted by a source literal. -/
def utf16 (s : String) : JSString :=
  s.toList.flatMap charUnits

/-- The code units that are WhiteSpace or LineTerminator in ECMAScript; this is
both what `String.prototype.trim` strips and what the class escape `\s` matches. -/
def isWhiteSpace (c : Nat) : Bool :=
  c == 9 || c == 10 || c == 11 || c == 12 || c == 13 || c == 32 || c == 160 ||
  c == 5760 || (8192 ≤ c && c ≤ 8202) || c == 8232 || c == 8233 || c == 8239 ||
  c == 8287 || c == 12288 || c == 65279

/-- The method `String.prototype.trimStart`. -/
def trimStart (s : JSString) : JSString :=
  s.dropWhile isWhiteSpace

/-- The method `String.prototype.trimEnd`. -/
def trimEnd (s : JSString) : JSString :=
  (s.reverse.dropWhile isWhiteSpace).reverse

/-- The method `String.prototype.trim`: white space removed from both ends. -/
def trim (s : JSString) : JSString :=
  trimEnd (trimStart s)

/-! ## Regular expressions (the fragment used by the script) -/

/-- One member of a character class: the escape `\s` or a single code unit. -/
inductive ClassAtom where
  | space : ClassAtom
  | unit (c : Nat) : ClassAtom

/-- Whether a code unit is matched by a class member. -/
def ClassAtom.test : ClassAtom → Nat → Bool
  | .space, c => isWhiteSpace c
  | .unit d, c => c == d

/-- A bracketed character class, `[...]` or `[^...]`. -/
structure CharClass where
  negated : Bool
  atoms : List ClassAtom

/-- Whether a code unit is matched by a character class. -/
def CharClass.test (cc : CharClass) (c : Nat) : Bool :=
  if cc.negated then !(cc.atoms.any fun a => a.test c) else cc.atoms.any fun a => a.test c

/-- One term of a pattern. -/
inductive Term where
  | bol : Term
  | eol : Term
  | lit (c : Nat) : Term
  | classPlus (cc : CharClass) : Term

/-- The greedy quantifier `+` over a character class, with continuation `k`:
take one more code unit of the class, first trying to take further ones and
only then the rest of the pattern. -/
def plusLoop (p : Nat → Bool) (k : Nat → JSString → Bool) : Nat → JSString → Bool
  | _, [] => false
  | i, c :: rest => p c && (plusLoop p k (i + 1) rest || k (i + 1) rest)

/-- The backtracking matcher: does the pattern match at index `i`, where `s`
is the input from index `i` on? -/
def matchTerms : List Term → Nat → JSString → Bool
  | [], _, _ => true
  | .bol :: ts, i, s => i == 0 && matchTerms ts i s
  | .eol :: ts, i, s => s.isEmpty && matchTerms ts i s
  | .lit _ :: _, _, [] => false
  | .lit c :: ts, i, d :: rest => d == c && matchTerms ts (i + 1) rest
  | .classPlus cc :: ts, i, s => plusLoop cc.test (fun j r => matchTerms ts j r) i s

/-- The search loop of `RegExp.prototype.exec` for a pattern without the
global or sticky flag: try every start index from `i` on. -/
def searchFrom (ts : List Term) : Nat → JSString → Bool
  | i, [] => matchTerms ts i []
  | i, c :: rest => matchTerms ts i (c :: rest) || searchFrom ts (i + 1) rest

/-- The method `RegExp.prototype.test`. -/
def regexTest (ts : List Term) (s : JSString) : Bool :=
  searchFrom ts 0 s

/-- The class `[^\s@]`. -/
def notSpaceAt : CharClass :=
  { negated := true, atoms := [.space, .unit 64] }

/-- The literal `/^[^\s@]+@[^\s@]+\.[^\s@]+$/`. -/
def emailRegex : List Term :=
  [.bol, .classPlus notSpaceAt, .lit 64, .classPlus notSpaceAt, .lit 46,
   .classPlus notSpaceAt, .eol]

/-- The function `isValidEmail` of the script. -/
def isValidEmail (email : JSString) : Bool :=
  regexTest emailRegex email

/-! ## The page state -/

/-- The method `DOMTokenList.add` for one token. -/
def classListAdd (classList : List JSString) (token : JSString) : List JSString :=
  if classList.contains token then classList else classList ++ [token]

/-- The method `DOMTokenList.remove` for one token. -/
def classListRemove (classList : List JSString) (token : JSString) : List JSString :=
  classList.filter fun t => t != token

/-- An element, as far as the script reads or writes it. -/
structure Element where
  classList : List JSString
  textContent : JSString

/-- A form control with its `parentElement` (the container of the field). -/
structure Input where
  value : JSString
  parentElement : Element

/-- The object `formData` built by the submit handler. -/
structure FormData where
  name : JSString
  email : JSString
  message : JSString

/-- The elements the form code looks up by id, the clock, the due times of the
pending `setTimeout` callbacks of the submit handler, and the records written
by its `console.log`. The markup is not part of the source; as in the data
model of the spec, where every field has an error slot and a container of its
own, the three controls have distinct parents and distinct error elements. -/
structure Page where
  nameInput : Input
  nameError : Element
  emailInput : Input
  emailError : Element
  messageInput : Input
  messageError : Element
  formMessage : Element
  now : Nat
  timers : List Nat
  console : List FormData

/-- The function `showError` of the script. -/
def showError (input : Input) (errorElement : Element) (message : JSString) :
    Input × Element :=
  let parent : Element :=
    { input.parentElement with
      classList := classListAdd input.parentElement.classList (utf16 "error") }
  let errorElement : Element := { errorElement with textContent := message }
  let errorElement : Element :=
    { errorElement with classList := classListAdd errorElement.classList (utf16 "show") }
  ({ input with parentElement := parent }, errorElement)

/-- The function `clearError` of the script. -/
def clearError (input : Input) (errorElement : Element) : Input × Element :=
  let parent : Element :=
    { input.parentElement with
      classList := classListRemove input.parentElement.classList (utf16 "error") }
  let errorElement : Element := { errorElement with textContent := [] }
  let errorElement : Element :=
    { errorElement with classList := classListRemove errorElement.classList (utf16 "show") }
  ({ input with parentElement := parent }, errorElement)

/-- The text shown for a name that is too short. -/
def nameMessage : JSString := utf16 "Name must be at least 2 characters"

/-- The text shown for a malformed email address. -/
def emailMessage : JSString := utf16 "Please enter a valid email address"

/-- The text shown for a message that is too short. -/
def messageMessage : JSString := utf16 "Message must be at least 10 characters"

/-- The function `validateForm` of the script. The pair is the local variable
`isValid` and the page. -/
def validateForm (p : Page) : Bool × Page :=
  let st : Bool × Page := (true, p)
  let st : Bool × Page :=
    if (trim st.2.nameInput.value).length < 2 then
      let r := showError st.2.nameInput st.2.nameError nameMessage
      (false, { st.2 with nameInput := r.1, nameError := r.2 })
    else
      let r := clearError st.2.nameInput st.2.nameError
      (st.1, { st.2 with nameInput := r.1, nameError := r.2 })
  let st : Bool × Page :=
    if !isValidEmail (trim st.2.emailInput.value) then
      let r := showError st.2.emailInput st.2.emailError emailMessage
      (false, { st.2 with emailInput := r.1, emailError := r.2 })
    else
      let r := clearError st.2.emailInput st.2.emailError
      (st.1, { st.2 with emailInput := r.1, emailError := r.2 })
  let st : Bool × Page :=
    if (trim st.2.messageInput.value).length < 10 then
      let r := showError st.2.messageInput st.2.messageError messageMessage
      (false, { st.2 with messageInput := r.1, messageError := r.2 })
    else
      let r := clearError st.2.messageInput st.2.messageError
      (st.1, { st.2 with messageInput := r.1, messageError := r.2 })
  st

/-- Modelled from the spec: the markup that gives the controls their default
values is not part of the source, and the spec says that an accepted
submission "resets all Field values to empty"; so `contactForm.reset()` puts
the empty string in the three controls. -/
def formReset (p : Page) : Page :=
  { p with
    nameInput := { p.nameInput with value := [] }
    emailInput := { p.emailInput with value := [] }
    messageInput := { p.messageInput with value := [] } }

/-- The template literal of the success message. -/
def successText (name : JSString) : JSString :=
  utf16 "Thank you " ++ name ++ utf16 "! I'll get back to you soon."

/-- The listener of the `submit` event of the form. -/
def submitHandler (p : Page) : Page :=
  let r := validateForm p
  if !r.1 then r.2
  else
    let p := r.2
    let formData : FormData :=
      { name := trim p.nameInput.value
        email := trim p.emailInput.value
        message := trim p.messageInput.value }
    let p := { p with formMessage := { p.formMessage with textContent := successText formData.name } }
    let p := { p with formMessage := { p.formMessage with
      classList := classListAdd (classListAdd p.formMessage.classList (utf16 "show")) (utf16 "success") } }
    let p := formReset p
    let p := { p with timers := p.timers ++ [p.now + 5000] }
    { p with console := p.console ++ [formData] }

/-- The callback given to `setTimeout` by the submit handler. -/
def hideCallback (p : Page) : Page :=
  { p with formMessage := { p.formMessage with
      classList := classListRemove p.formMessage.classList (utf16 "show") } }

/-- The listener of the `blur` event of the name control. -/
def nameBlur (p : Page) : Page :=
  if (trim p.nameInput.value).length < 2 then
    let r := showError p.nameInput p.nameError nameMessage
    { p with nameInput := r.1, nameError := r.2 }
  else
    let r := clearError p.nameInput p.nameError
    { p with nameInput := r.1, nameError := r.2 }

/-- The listener of the `blur` event of the email control. -/
def emailBlur (p : Page) : Page :=
  if !isValidEmail (trim p.emailInput.value) then
    let r := showError p.emailInput p.emailError emailMessage
    { p with emailInput := r.1, emailError := r.2 }
  else
    let r := clearError p.emailInput p.emailError
    { p with emailInput := r.1, emailError := r.2 }

/-- The listener of the `blur` event of the message control. -/
def messageBlur (p : Page) : Page :=
  if (trim p.messageInput.value).length < 10 then
    let r := showError p.messageInput p.messageError messageMessage
    { p with messageInput := r.1, messageError := r.2 }
  else
    let r := clearError p.messageInput p.messageError
    { p with messageInput := r.1, messageError := r.2 }

/-! ## The event loop -/

/-- The clock moves forward by `d`: every pending callback that has become due
runs, in the order in which it was scheduled, and leaves the queue. -/
def advance (d : Nat) (p : Page) : Page :=
  let now := p.now + d
  let due := p.timers.filter fun t => t ≤ now
  let p := due.foldl (fun q _ => hideCallback q) p
  { p with now := now, timers := p.timers.filter fun t => !(t ≤ now) }

/-- What can happen to the page: the user edits a control, a control loses
focus, the form is submitted, or time passes. -/
inductive Event where
  | typeName (v : JSString) : Event
  | typeEmail (v : JSString) : Event
  | typeMessage (v : JSString) : Event
  | blurName : Event
  | blurEmail : Event
  | blurMessage : Event
  | submit : Event
  | wait (d : Nat) : Event

/-- The effect of one event. -/
def step (p : Page) : Event → Page
  | .typeName v => { p with nameInput := { p.nameInput with value := v } }
  | .typeEmail v => { p with emailInput := { p.emailInput with value := v } }
  | .typeMessage v => { p with messageInput := { p.messageInput with value := v } }
  | .blurName => nameBlur p
  | .blurEmail => emailBlur p
  | .blurMessage => messageBlur p
  | .submit => submitHandler p
  | .wait d => advance d p

/-- The effect of a sequence of events. -/
def run (p : Page) (es : List Event) : Page :=
  es.foldl step p

/-- The time that passes during a sequence of events. -/
def duration : List Event → Nat
  | [] => 0
  | .wait d :: es => d + duration es
  | _ :: es => duration es

/-! ## Observations -/

/-- Whether an element carries a class. -/
def hasClass (e : Element) (token : JSString) : Bool :=
  e.classList.contains token

/-- The success banner is shown. -/
def bannerShown (p : Page) : Bool :=
  hasClass p.formMessage (utf16 "show")

/-- The rule of the name field. -/
def nameOk (p : Page) : Bool := decide (2 ≤ (trim p.nameInput.value).length)

/-- The rule of the email field. -/
def emailOk (p : Page) : Bool := isValidEmail (trim p.emailInput.value)

/-- The rule of the message field. -/
def messageOk (p : Page) : Bool := decide (10 ≤ (trim p.messageInput.value).length)

/-- A page with the given field values, no class set anywhere, empty texts, the
clock at zero, no pending callback and an empty console. -/
def freshPage (name email message : JSString) : Page :=
  { nameInput := { value := name, parentElement := { classList := [], textContent := [] } }
    nameError := { classList := [], textContent := [] }
    emailInput := { value := email, parentElement := { classList := [], textContent := [] } }
    emailError := { classList := [], textContent := [] }
    messageInput := { value := message, parentElement := { classList := [], textContent := [] } }
    messageError := { classList := [], textContent := [] }
    formMessage := { classList := [], textContent := [] }
    now := 0
    timers := []
    console := [] }

/-- A code unit that is neither white space nor `@`. -/
def plainUnit (c : Nat) : Prop :=
  isWhiteSpace c = false ∧ c ≠ 64

/-- The shape the spec gives for an accepted address: a local part, `@`, a
domain, `.`, and a last part, each non-empty and free of white space and `@`. -/
def EmailShape (s : JSString) : Prop :=
  ∃ l d t : JSString, s = l ++ 64 :: (d ++ 46 :: t) ∧ l ≠ [] ∧ d ≠ [] ∧ t ≠ [] ∧
    (∀ c ∈ l, plainUnit c) ∧ (∀ c ∈ d, plainUnit c) ∧ (∀ c ∈ t, plainUnit c)

/-- The part of a string after its first `@`. -/
def afterAt (s : JSString) : JSString :=
  (s.dropWhile fun c => c != 64).tail

/-- What a validation block leaves in a field: cleared when the rule holds,
the error shown otherwise. -/
def settle (ok : Bool) (input : Input) (errorElement : Element) (message : JSString) :
    Input × Element :=
  if ok then clearError input errorElement else showError input errorElement message

/-- What the user sees of a field's error: the `error` class of the container,
the `show` class of the error element, and the error text. -/
def errorView (input : Input) (errorElement : Element) : Bool × Bool × JSString :=
  (hasClass input.parentElement (utf16 "error"), hasClass errorElement (utf16 "show"),
    errorElement.textContent)

/-- A page with the given field values on which an earlier validation has left
all three fields in the error state. -/
def stalePage (name email message : JSString) : Page :=
  { nameInput :=
      { value := name
        parentElement := { classList := [utf16 "form-group", utf16 "error"], textContent := [] } }
    nameError := { classList := [utf16 "error-message", utf16 "show"], textContent := nameMessage }
    emailInput :=
      { value := email
        parentElement := { classList := [utf16 "form-group", utf16 "error"], textContent := [] } }
    emailError :=
      { classList := [utf16 "error-message", utf16 "show"], textContent := emailMessage }
    messageInput :=
      { value := message
        parentElement := { classList := [utf16 "form-group", utf16 "error"], textContent := [] } }
    messageError :=
      { classList := [utf16 "error-message", utf16 "show"], textContent := messageMessage }
    formMessage := { classList := [utf16 "form-message"], textContent := [] }
    now := 0
    timers := []
    console := [] }

/-! ## Lemmas on the matcher -/

theorem plusLoop_iff (p : Nat → Bool) (k : Nat → JSString → Bool) :
    ∀ (s : JSString) (i : Nat), plusLoop p k i s = true ↔
      ∃ a b : JSString, s = a ++ b ∧ a ≠ [] ∧ (∀ c ∈ a, p c = true) ∧
        k (i + a.length) b = true := by
  intro s
  induction s with
  | nil =>
    intro i
    constructor
    · intro h
      simp [plusLoop] at h
    · rintro ⟨a, b, hs, ha, -, -⟩
      cases a with
      | nil => exact absurd rfl ha
      | cons x xs => simp at hs
  | cons c rest ih =>
    intro i
    constructor
    · intro h
      simp only [plusLoop, Bool.and_eq_true, Bool.or_eq_true] at h
      obtain ⟨hc, h | h⟩ := h
      · obtain ⟨a, b, hs, -, hall, hk⟩ := (ih (i + 1)).1 h
        refine ⟨c :: a, b, by simp [hs], by simp, ?_, ?_⟩
        · intro x hx
          rcases List.mem_cons.1 hx with rfl | hx
          · exact hc
          · exact hall x hx
        · have : i + (c :: a).length = i + 1 + a.length := by simp; omega
          rw [this]
          exact hk
      · exact ⟨[c], rest, by simp, by simp, by simpa using hc, by simpa using h⟩
    · rintro ⟨a, b, hs, ha, hall, hk⟩
      cases a with
      | nil => exact absurd rfl ha
      | cons x xs =>
        simp only [List.cons_append, List.cons.injEq] at hs
        obtain ⟨rfl, rfl⟩ := hs
        simp only [plusLoop, Bool.and_eq_true, Bool.or_eq_true]
        refine ⟨hall c (by simp), ?_⟩
        cases xs with
        | nil =>
          right
          simpa using hk
        | cons y ys =>
          left
          refine (ih (i + 1)).2 ⟨y :: ys, b, rfl, by simp, ?_, ?_⟩
          · intro z hz
            exact hall z (List.mem_cons_of_mem _ hz)
          · have : i + 1 + (y :: ys).length = i + (c :: y :: ys).length := by simp; omega
            rw [this]
            exact hk

theorem matchTerms_lit (c : Nat) (ts : List Term) (i : Nat) (s : JSString) :
    matchTerms (.lit c :: ts) i s = true ↔
      ∃ rest, s = c :: rest ∧ matchTerms ts (i + 1) rest = true := by
  cases s with
  | nil => simp [matchTerms]
  | cons d rest =>
    simp only [matchTerms, Bool.and_eq_true, beq_iff_eq, List.cons.injEq]
    constructor
    · rintro ⟨rfl, h⟩
      exact ⟨rest, ⟨rfl, rfl⟩, h⟩
    · rintro ⟨r, ⟨rfl, rfl⟩, h⟩
      exact ⟨rfl, h⟩

theorem searchFrom_bol (ts : List Term) :
    ∀ (s : JSString) (i : Nat), 0 < i → searchFrom (.bol :: ts) i s = false := by
  intro s
  induction s with
  | nil =>
    intro i hi
    have : (i == 0) = false := by simp; omega
    simp [searchFrom, matchTerms, this]
  | cons c rest ih =>
    intro i hi
    have : (i == 0) = false := by simp; omega
    simp [searchFrom, matchTerms, this, ih (i + 1) (by omega)]

theorem regexTest_bol (ts : List Term) (s : JSString) :
    regexTest (.bol :: ts) s = matchTerms ts 0 s := by
  cases s with
  | nil => simp [regexTest, searchFrom, matchTerms]
  | cons c rest =>
    simp [regexTest, searchFrom, matchTerms, searchFrom_bol ts rest 1 (by omega)]

theorem notSpaceAt_test (c : Nat) : notSpaceAt.test c = true ↔ plainUnit c := by
  simp [notSpaceAt, CharClass.test, ClassAtom.test, plainUnit]

theorem isValidEmail_iff (s : JSString) : isValidEmail s = true ↔ EmailShape s := by
  unfold isValidEmail emailRegex EmailShape
  rw [regexTest_bol]
  simp only [matchTerms, plusLoop_iff, matchTerms_lit, notSpaceAt_test]
  constructor
  · rintro ⟨l, b, rfl, hl, hlall, r1, rfl, d, b2, rfl, hd, hdall, r2, rfl, t, b3, rfl, ht,
      htall, hend⟩
    simp only [Bool.and_true, List.isEmpty_iff] at hend
    subst hend
    exact ⟨l, d, t, by simp, hl, hd, ht, hlall, hdall, htall⟩
  · rintro ⟨l, d, t, rfl, hl, hd, ht, hlall, hdall, htall⟩
    exact ⟨l, _, rfl, hl, hlall, _, rfl, d, _, rfl, hd, hdall, _, rfl, t, [], by simp, ht,
      htall, by simp⟩

theorem count_at_plain (l : JSString) (h : ∀ c ∈ l, plainUnit c) : l.count 64 = 0 := by
  rw [List.count_eq_zero]
  intro hmem
  exact (h 64 hmem).2 rfl

theorem dropWhile_plain (l rest : JSString) (h : ∀ c ∈ l, plainUnit c) :
    (l ++ 64 :: rest).dropWhile (fun c => c != 64) = 64 :: rest := by
  induction l with
  | nil => simp [List.dropWhile]
  | cons x xs ih =>
    have hx : (x != 64) = true := by simpa using (h x (by simp)).2
    simp only [List.cons_append, List.dropWhile_cons, hx, if_true]
    exact ih fun c hc => h c (List.mem_cons_of_mem _ hc)

/-! ## Lemmas on class lists -/

theorem contains_classListAdd (l : List JSString) (t : JSString) :
    (classListAdd l t).contains t = true := by
  unfold classListAdd
  by_cases h : t ∈ l
  · simp [h]
  · simp [h]

theorem contains_classListRemove (l : List JSString) (t : JSString) :
    (classListRemove l t).contains t = false := by
  unfold classListRemove
  simp [List.mem_filter]

theorem classListAdd_idem (l : List JSString) (t : JSString) :
    classListAdd (classListAdd l t) t = classListAdd l t := by
  have h := contains_classListAdd l t
  generalize classListAdd l t = m at h
  unfold classListAdd
  rw [if_pos h]

theorem classListRemove_idem (l : List JSString) (t : JSString) :
    classListRemove (classListRemove l t) t = classListRemove l t := by
  unfold classListRemove
  simp [List.filter_filter]

theorem classListRemove_of_not_contains (l : List JSString) (t : JSString)
    (h : l.contains t = false) : classListRemove l t = l := by
  unfold classListRemove
  rw [List.filter_eq_self]
  intro a ha
  have : ¬ t ∈ l := by simpa using h
  simp only [bne_iff_ne, ne_eq]
  rintro rfl
  exact this ha

/-! ## Lemmas on the handlers -/

theorem validateForm_eq (p : Page) :
    validateForm p =
      (nameOk p && emailOk p && messageOk p,
        { p with
          nameInput := (settle (nameOk p) p.nameInput p.nameError nameMessage).1
          nameError := (settle (nameOk p) p.nameInput p.nameError nameMessage).2
          emailInput := (settle (emailOk p) p.emailInput p.emailError emailMessage).1
          emailError := (settle (emailOk p) p.emailInput p.emailError emailMessage).2
          messageInput :=
            (settle (messageOk p) p.messageInput p.messageError messageMessage).1
          messageError :=
            (settle (messageOk p) p.messageInput p.messageError messageMessage).2 }) := by
  unfold validateForm nameOk emailOk messageOk settle
  by_cases h1 : (trim p.nameInput.value).length < 2 <;>
  by_cases h2 : isValidEmail (trim p.emailInput.value) = true <;>
  by_cases h3 : (trim p.messageInput.value).length < 10 <;>
  simp [h1, h2, h3, Nat.not_le.2, Nat.not_lt.1]

theorem nameBlur_eq (p : Page) :
    nameBlur p =
      { p with
        nameInput := (settle (nameOk p) p.nameInput p.nameError nameMessage).1
        nameError := (settle (nameOk p) p.nameInput p.nameError nameMessage).2 } := by
  unfold nameBlur nameOk settle
  by_cases h1 : (trim p.nameInput.value).length < 2 <;>
  simp [h1, Nat.not_le.2, Nat.not_lt.1]

theorem emailBlur_eq (p : Page) :
    emailBlur p =
      { p with
        emailInput := (settle (emailOk p) p.emailInput p.emailError emailMessage).1
        emailError := (settle (emailOk p) p.emailInput p.emailError emailMessage).2 } := by
  unfold emailBlur emailOk settle
  by_cases h2 : isValidEmail (trim p.emailInput.value) = true <;>
  simp [h2]

theorem messageBlur_eq (p : Page) :
    messageBlur p =
      { p with
        messageInput :=
          (settle (messageOk p) p.messageInput p.messageError messageMessage).1
        messageError :=
          (settle (messageOk p) p.messageInput p.messageError messageMessage).2 } := by
  unfold messageBlur messageOk settle
  by_cases h3 : (trim p.messageInput.value).length < 10 <;>
  simp [h3, Nat.not_le.2, Nat.not_lt.1]

theorem settle_true (input : Input) (e : Element) (m : JSString) :
    (settle true input e m).1.value = input.value ∧
    hasClass (settle true input e m).1.parentElement (utf16 "error") = false ∧
    hasClass (settle true input e m).2 (utf16 "show") = false ∧
    (settle true input e m).2.textContent = [] := by
  exact ⟨rfl, contains_classListRemove _ _, contains_classListRemove _ _, rfl⟩

theorem settle_false (input : Input) (e : Element) (m : JSString) :
    (settle false input e m).1.value = input.value ∧
    hasClass (settle false input e m).1.parentElement (utf16 "error") = true ∧
    hasClass (settle false input e m).2 (utf16 "show") = true ∧
    (settle false input e m).2.textContent = m := by
  exact ⟨rfl, contains_classListAdd _ _, contains_classListAdd _ _, rfl⟩

theorem errorView_settle (ok : Bool) (input : Input) (e : Element) (m : JSString) :
    errorView (settle ok input e m).1 (settle ok input e m).2 =
      if ok then (false, false, []) else (true, true, m) := by
  cases ok
  · obtain ⟨-, h1, h2, h3⟩ := settle_false input e m
    simp [errorView, h1, h2, h3]
  · obtain ⟨-, h1, h2, h3⟩ := settle_true input e m
    simp [errorView, h1, h2, h3]

theorem settle_value (ok : Bool) (input : Input) (e : Element) (m : JSString) :
    (settle ok input e m).1.value = input.value := by
  cases ok
  · exact (settle_false input e m).1
  · exact (settle_true input e m).1

theorem contains_classListAdd_of_contains (l : List JSString) (t u : JSString)
    (h : l.contains t = true) : (classListAdd l u).contains t = true := by
  unfold classListAdd
  by_cases hu : l.contains u = true
  · rw [if_pos hu]; exact h
  · rw [if_neg hu]
    have : t ∈ l := by simpa using h
    simp [this]

theorem submitHandler_reject (p : Page)
    (h : (nameOk p && emailOk p && messageOk p) = false) :
    submitHandler p = (validateForm p).2 := by
  unfold submitHandler
  rw [validateForm_eq]
  simp [h]

theorem submitHandler_accept (p : Page)
    (h : (nameOk p && emailOk p && messageOk p) = true) :
    submitHandler p =
      { (formReset (validateForm p).2) with
        formMessage :=
          { classList :=
              classListAdd (classListAdd p.formMessage.classList (utf16 "show"))
                (utf16 "success")
            textContent := successText (trim p.nameInput.value) }
        timers := p.timers ++ [p.now + 5000]
        console := p.console ++
          [{ name := trim p.nameInput.value, email := trim p.emailInput.value,
             message := trim p.messageInput.value }] } := by
  unfold submitHandler
  rw [validateForm_eq]
  simp [h, formReset, settle_value]

/-! ## Lemmas on the event loop -/

theorem fold_hide_timers :
    ∀ (l : List Nat) (p : Page),
      (l.foldl (fun q _ => hideCallback q) p).timers = p.timers ∧
      (l.foldl (fun q _ => hideCallback q) p).now = p.now := by
  intro l
  induction l with
  | nil => intro p; exact ⟨rfl, rfl⟩
  | cons x xs ih =>
    intro p
    simp only [List.foldl_cons]
    exact ih (hideCallback p)

theorem fold_hide_hidden :
    ∀ (l : List Nat) (p : Page), bannerShown p = false →
      bannerShown (l.foldl (fun q _ => hideCallback q) p) = false := by
  intro l
  induction l with
  | nil => intro p h; exact h
  | cons x xs ih =>
    intro p _
    simp only [List.foldl_cons]
    exact ih (hideCallback p) (contains_classListRemove _ _)

theorem fold_hide_nonempty (l : List Nat) (p : Page) (h : l ≠ []) :
    bannerShown (l.foldl (fun q _ => hideCallback q) p) = false := by
  cases l with
  | nil => exact absurd rfl h
  | cons x xs =>
    simp only [List.foldl_cons]
    exact fold_hide_hidden xs (hideCallback p) (contains_classListRemove _ _)

theorem advance_hides (p : Page) (d T : Nat) (hT : T ∈ p.timers) (hle : T ≤ p.now + d) :
    bannerShown (advance d p) = false := by
  have hne : p.timers.filter (fun t => decide (t ≤ p.now + d)) ≠ [] := by
    intro h
    have : T ∈ p.timers.filter (fun t => decide (t ≤ p.now + d)) := by
      simp [List.mem_filter, hT, hle]
    rw [h] at this
    exact absurd this (List.not_mem_nil T)
  exact fold_hide_nonempty _ p hne

theorem advance_quiet (p : Page) (d : Nat) (h : ∀ due ∈ p.timers, p.now + d < due) :
    (advance d p).formMessage = p.formMessage := by
  have hnil : p.timers.filter (fun t => decide (t ≤ p.now + d)) = [] := by
    rw [List.filter_eq_nil_iff]
    intro a ha
    have := h a ha
    simp only [decide_eq_true_eq]
    omega
  unfold advance
  simp only [hnil, List.foldl_nil]

theorem advance_timers (p : Page) (d : Nat) :
    (advance d p).timers = p.timers.filter (fun t => !decide (t ≤ p.now + d)) ∧
    (advance d p).now = p.now + d := by
  unfold advance
  exact ⟨by simp only [(fold_hide_timers _ p).1], rfl⟩

theorem submitHandler_frame (p : Page) :
    (submitHandler p).now = p.now ∧
    (bannerShown p = true → bannerShown (submitHandler p) = true) ∧
    (∀ due, due ∈ (submitHandler p).timers ↔
      due ∈ p.timers ∨
        ((nameOk p && emailOk p && messageOk p) = true ∧ due = p.now + 5000)) := by
  by_cases h : (nameOk p && emailOk p && messageOk p) = true
  · rw [submitHandler_accept p h, validateForm_eq]
    refine ⟨rfl, fun _ => ?_, fun due => ?_⟩
    · exact contains_classListAdd_of_contains _ _ _ (contains_classListAdd _ _)
    · simp [h]
  · have h' : (nameOk p && emailOk p && messageOk p) = false := by simpa using h
    rw [submitHandler_reject p h', validateForm_eq]
    refine ⟨rfl, fun hs => hs, fun due => ?_⟩
    simp [h']

theorem step_now (p : Page) (e : Event) : (step p e).now = p.now + duration [e] := by
  cases e with
  | typeName v => rfl
  | typeEmail v => rfl
  | typeMessage v => rfl
  | blurName => simp only [step, nameBlur_eq, duration]; rfl
  | blurEmail => simp only [step, emailBlur_eq, duration]; rfl
  | blurMessage => simp only [step, messageBlur_eq, duration]; rfl
  | submit => simp only [step, duration]; exact (submitHandler_frame p).1
  | wait d => simp only [step, duration]; exact (advance_timers p d).2

theorem step_timers (p : Page) (e : Event) (due : Nat) (h : due ∈ (step p e).timers) :
    due ∈ p.timers ∨ due = p.now + 5000 := by
  cases e with
  | typeName v => exact Or.inl h
  | typeEmail v => exact Or.inl h
  | typeMessage v => exact Or.inl h
  | blurName => simp only [step, nameBlur_eq] at h; exact Or.inl h
  | blurEmail => simp only [step, emailBlur_eq] at h; exact Or.inl h
  | blurMessage => simp only [step, messageBlur_eq] at h; exact Or.inl h
  | submit =>
    rcases ((submitHandler_frame p).2.2 due).1 h with h | ⟨-, h⟩
    · exact Or.inl h
    · exact Or.inr h
  | wait d =>
    simp only [step, (advance_timers p d).1] at h
    exact Or.inl (List.mem_filter.1 h).1

theorem step_keeps_timer (p : Page) (e : Event) (T : Nat) (hT : T ∈ p.timers)
    (hlt : p.now + duration [e] < T) : T ∈ (step p e).timers := by
  cases e with
  | typeName v => exact hT
  | typeEmail v => exact hT
  | typeMessage v => exact hT
  | blurName => simp only [step, nameBlur_eq]; exact hT
  | blurEmail => simp only [step, emailBlur_eq]; exact hT
  | blurMessage => simp only [step, messageBlur_eq]; exact hT
  | submit => exact ((submitHandler_frame p).2.2 T).2 (Or.inl hT)
  | wait d =>
    simp only [step, (advance_timers p d).1]
    simp only [duration] at hlt
    simp only [List.mem_filter, hT, true_and, Bool.not_eq_true', decide_eq_false_iff_not]
    omega

theorem step_shown (p : Page) (e : Event) (hs : bannerShown p = true)
    (h : ∀ due ∈ p.timers, p.now + duration [e] < due) : bannerShown (step p e) = true := by
  cases e with
  | typeName v => exact hs
  | typeEmail v => exact hs
  | typeMessage v => exact hs
  | blurName => simp only [step, nameBlur_eq]; exact hs
  | blurEmail => simp only [step, emailBlur_eq]; exact hs
  | blurMessage => simp only [step, messageBlur_eq]; exact hs
  | submit => exact (submitHandler_frame p).2.1 hs
  | wait d =>
    have hq := advance_quiet p d (fun due hd => by have := h due hd; simpa [duration] using this)
    simp only [step, bannerShown, hq]
    exact hs

theorem duration_cons (e : Event) (es : List Event) :
    duration (e :: es) = duration [e] + duration es := by
  cases e <;> simp [duration]

theorem run_now : ∀ (es : List Event) (p : Page), (run p es).now = p.now + duration es := by
  intro es
  induction es with
  | nil => intro p; rfl
  | cons e es ih =>
    intro p
    have : run p (e :: es) = run (step p e) es := rfl
    rw [this, ih, step_now, duration_cons e es]
    omega

theorem run_keeps_timer :
    ∀ (es : List Event) (p : Page) (T : Nat), T ∈ p.timers → p.now + duration es < T →
      T ∈ (run p es).timers := by
  intro es
  induction es with
  | nil => intro p T hT _; exact hT
  | cons e es ih =>
    intro p T hT hlt
    have hrun : run p (e :: es) = run (step p e) es := rfl
    rw [duration_cons] at hlt
    rw [hrun]
    refine ih (step p e) T (step_keeps_timer p e T hT (by omega)) ?_
    rw [step_now]
    omega

theorem run_shown :
    ∀ (es : List Event) (p : Page), bannerShown p = true → duration es < 5000 →
      (∀ due ∈ p.timers, p.now + duration es < due) → bannerShown (run p es) = true := by
  intro es
  induction es with
  | nil => intro p hs _ _; exact hs
  | cons e es ih =>
    intro p hs hd hall
    have hrun : run p (e :: es) = run (step p e) es := rfl
    rw [duration_cons] at hd hall
    rw [hrun]
    refine ih (step p e) (step_shown p e hs fun due hdue => ?_) (by omega) fun due hdue => ?_
    · have := hall due hdue
      omega
    · rw [step_now]
      rcases step_timers p e due hdue with h | h
      · have := hall due h
        omega
      · omega

/-! ## The claims -/

/-- C2: `isValidEmail s` is true exactly when `s` is a non-empty local part, `@`,
a non-empty domain, `.` and a non-empty last part, none of which contains white
space or `@`; an accepted string therefore has exactly one `@`, no white space,
and a `.` after the `@` that is neither the first nor the last code unit of that
part. The string `a@b.c` is accepted and `not-an-email` is rejected. -/
theorem isValidEmail_spec :
    (∀ s : JSString, isValidEmail s = true ↔ EmailShape s) ∧
    (∀ s : JSString, isValidEmail s = true →
      s.count 64 = 1 ∧ (∀ c ∈ s, isWhiteSpace c = false) ∧
      ∃ d t : JSString, afterAt s = d ++ 46 :: t ∧ d ≠ [] ∧ t ≠ []) ∧
    isValidEmail (utf16 "a@b.c") = true ∧
    isValidEmail (utf16 "not-an-email") = false := by
  refine ⟨isValidEmail_iff, ?_, by decide, by decide⟩
  intro s hs
  obtain ⟨l, d, t, rfl, -, hd, ht, hl, hdall, htall⟩ := (isValidEmail_iff s).1 hs
  refine ⟨?_, ?_, d, t, ?_, hd, ht⟩
  · have h46 : (46 : Nat) ≠ 64 := by decide
    simp [List.count_append, List.count_cons, count_at_plain l hl, count_at_plain d hdall,
      count_at_plain t htall]
  · intro c hc
    simp only [List.mem_append, List.mem_cons] at hc
    rcases hc with hc | rfl | hc | rfl | hc
    · exact (hl c hc).1
    · decide
    · exact (hdall c hc).1
    · decide
    · exact (htall c hc).1
  · unfold afterAt
    rw [dropWhile_plain l _ hl]
    rfl

/-- C1: `validateForm` returns true exactly when the trimmed name has at least 2
code units, the trimmed email passes `isValidEmail` and the trimmed message has
at least 10 code units, and false exactly when one of the three fails, on every
page (so whatever the error state of the fields was before). -/
theorem validateForm_result (p : Page) :
    ((validateForm p).1 = true ↔
      (2 ≤ (trim p.nameInput.value).length ∧ isValidEmail (trim p.emailInput.value) = true ∧
        10 ≤ (trim p.messageInput.value).length)) ∧
    ((validateForm p).1 = false ↔
      ((trim p.nameInput.value).length < 2 ∨ isValidEmail (trim p.emailInput.value) = false ∨
        (trim p.messageInput.value).length < 10)) := by
  rw [validateForm_eq]
  simp only [nameOk, emailOk, messageOk]
  by_cases h1 : 2 ≤ (trim p.nameInput.value).length <;>
  by_cases h2 : isValidEmail (trim p.emailInput.value) = true <;>
  by_cases h3 : 10 ≤ (trim p.messageInput.value).length <;>
  simp [h1, h2, h3, Nat.not_lt.2, Nat.not_le.1]

/-- C4, as the spec states it, fails: with name `A`, email `a@b.com` and message
`short` the name field ends in the error state too, with the name message. -/
theorem submit_A_short_counterexample :
    ¬ ((validateForm (freshPage (utf16 "A") (utf16 "a@b.com") (utf16 "short"))).1 = false ∧
      errorView (validateForm (freshPage (utf16 "A") (utf16 "a@b.com") (utf16 "short"))).2.messageInput
        (validateForm (freshPage (utf16 "A") (utf16 "a@b.com") (utf16 "short"))).2.messageError
        = (true, true, messageMessage) ∧
      errorView (validateForm (freshPage (utf16 "A") (utf16 "a@b.com") (utf16 "short"))).2.nameInput
        (validateForm (freshPage (utf16 "A") (utf16 "a@b.com") (utf16 "short"))).2.nameError
        = (false, false, []) ∧
      errorView (validateForm (freshPage (utf16 "A") (utf16 "a@b.com") (utf16 "short"))).2.emailInput
        (validateForm (freshPage (utf16 "A") (utf16 "a@b.com") (utf16 "short"))).2.emailError
        = (false, false, [])) := by
  decide

/-- C4, amended: with name `A`, email `a@b.com` and message `short`, whatever the
error state before, `validateForm` returns false, the name field and the message
field end in the error state with their messages, and the email field ends clear
with empty error text. -/
theorem submit_A_short (p : Page) (hn : p.nameInput.value = utf16 "A")
    (he : p.emailInput.value = utf16 "a@b.com") (hm : p.messageInput.value = utf16 "short") :
    (validateForm p).1 = false ∧
    errorView (validateForm p).2.nameInput (validateForm p).2.nameError
      = (true, true, utf16 "Name must be at least 2 characters") ∧
    errorView (validateForm p).2.messageInput (validateForm p).2.messageError
      = (true, true, utf16 "Message must be at least 10 characters") ∧
    errorView (validateForm p).2.emailInput (validateForm p).2.emailError
      = (false, false, []) := by
  have h1 : nameOk p = false := by unfold nameOk; rw [hn]; decide
  have h2 : emailOk p = true := by unfold emailOk; rw [he]; decide
  have h3 : messageOk p = false := by unfold messageOk; rw [hm]; decide
  rw [validateForm_eq]
  simp only [errorView_settle, h1, h2, h3]
  simp [nameMessage, messageMessage]

theorem submit_A_short_witness :
    (stalePage (utf16 "A") (utf16 "a@b.com") (utf16 "short")).nameInput.value = utf16 "A" ∧
    (validateForm (stalePage (utf16 "A") (utf16 "a@b.com") (utf16 "short"))).1 = false ∧
    errorView (validateForm (stalePage (utf16 "A") (utf16 "a@b.com") (utf16 "short"))).2.nameInput
      (validateForm (stalePage (utf16 "A") (utf16 "a@b.com") (utf16 "short"))).2.nameError
      = (true, true, utf16 "Name must be at least 2 characters") :=
  ⟨rfl, (submit_A_short (stalePage (utf16 "A") (utf16 "a@b.com") (utf16 "short")) rfl rfl rfl).1,
    (submit_A_short (stalePage (utf16 "A") (utf16 "a@b.com") (utf16 "short")) rfl rfl rfl).2.1⟩

/-- C5: when the trimmed email fails the pattern and the name and the message pass
their rules, `validateForm` returns false, the email field ends in the error
state with the text `Please enter a valid email address`, and the name and
message fields end clear with empty error text, whatever the error state of the
three fields was before. -/
theorem invalid_email_only (p : Page) (he : isValidEmail (trim p.emailInput.value) = false)
    (hn : 2 ≤ (trim p.nameInput.value).length) (hm : 10 ≤ (trim p.messageInput.value).length) :
    (validateForm p).1 = false ∧
    errorView (validateForm p).2.emailInput (validateForm p).2.emailError
      = (true, true, utf16 "Please enter a valid email address") ∧
    errorView (validateForm p).2.nameInput (validateForm p).2.nameError = (false, false, []) ∧
    errorView (validateForm p).2.messageInput (validateForm p).2.messageError
      = (false, false, []) := by
  have h1 : nameOk p = true := by simpa [nameOk] using hn
  have h2 : emailOk p = false := he
  have h3 : messageOk p = true := by simpa [messageOk] using hm
  rw [validateForm_eq]
  simp only [errorView_settle, h1, h2, h3]
  simp [emailMessage]

theorem invalid_email_only_witness :
    isValidEmail (trim (utf16 "not-an-email")) = false ∧
    (validateForm (stalePage (utf16 "Jane Doe") (utf16 "not-an-email")
      (utf16 "Hello, I would like to connect."))).1 = false ∧
    errorView
      (validateForm (stalePage (utf16 "Jane Doe") (utf16 "not-an-email")
        (utf16 "Hello, I would like to connect."))).2.emailInput
      (validateForm (stalePage (utf16 "Jane Doe") (utf16 "not-an-email")
        (utf16 "Hello, I would like to connect."))).2.emailError
      = (true, true, utf16 "Please enter a valid email address") ∧
    errorView
      (validateForm (stalePage (utf16 "Jane Doe") (utf16 "not-an-email")
        (utf16 "Hello, I would like to connect."))).2.nameInput
      (validateForm (stalePage (utf16 "Jane Doe") (utf16 "not-an-email")
        (utf16 "Hello, I would like to connect."))).2.nameError = (false, false, []) ∧
    errorView
      (validateForm (stalePage (utf16 "Jane Doe") (utf16 "not-an-email")
        (utf16 "Hello, I would like to connect."))).2.messageInput
      (validateForm (stalePage (utf16 "Jane Doe") (utf16 "not-an-email")
        (utf16 "Hello, I would like to connect."))).2.messageError = (false, false, []) :=
  ⟨by decide,
    invalid_email_only
      (stalePage (utf16 "Jane Doe") (utf16 "not-an-email") (utf16 "Hello, I would like to connect."))
      (by decide) (by decide) (by decide)⟩

/-- C7: after `validateForm`, on every page and whatever the errors shown before,
each field shows an error exactly when its current value fails its rule: a
failing field has the `error` and `show` classes and its fixed message, a passing
field has neither class and an empty error text, and all three fields are
settled in the same call. The same holds for the field of a blur handler after
that handler has run. -/
theorem error_state_follows_rules (p : Page) :
    (errorView (validateForm p).2.nameInput (validateForm p).2.nameError =
        (if nameOk (validateForm p).2 then (false, false, [])
         else (true, true, utf16 "Name must be at least 2 characters")) ∧
      errorView (validateForm p).2.emailInput (validateForm p).2.emailError =
        (if emailOk (validateForm p).2 then (false, false, [])
         else (true, true, utf16 "Please enter a valid email address")) ∧
      errorView (validateForm p).2.messageInput (validateForm p).2.messageError =
        (if messageOk (validateForm p).2 then (false, false, [])
         else (true, true, utf16 "Message must be at least 10 characters"))) ∧
    errorView (nameBlur p).nameInput (nameBlur p).nameError =
      (if nameOk (nameBlur p) then (false, false, [])
       else (true, true, utf16 "Name must be at least 2 characters")) ∧
    errorView (emailBlur p).emailInput (emailBlur p).emailError =
      (if emailOk (emailBlur p) then (false, false, [])
       else (true, true, utf16 "Please enter a valid email address")) ∧
    errorView (messageBlur p).messageInput (messageBlur p).messageError =
      (if messageOk (messageBlur p) then (false, false, [])
       else (true, true, utf16 "Message must be at least 10 characters")) := by
  have hn : nameOk (validateForm p).2 = nameOk p := by
    rw [validateForm_eq]; simp [nameOk, settle_value]
  have he : emailOk (validateForm p).2 = emailOk p := by
    rw [validateForm_eq]; simp [emailOk, settle_value]
  have hm : messageOk (validateForm p).2 = messageOk p := by
    rw [validateForm_eq]; simp [messageOk, settle_value]
  have hn' : nameOk (nameBlur p) = nameOk p := by
    rw [nameBlur_eq]; simp [nameOk, settle_value]
  have he' : emailOk (emailBlur p) = emailOk p := by
    rw [emailBlur_eq]; simp [emailOk, settle_value]
  have hm' : messageOk (messageBlur p) = messageOk p := by
    rw [messageBlur_eq]; simp [messageOk, settle_value]
  rw [hn, he, hm, hn', he', hm']
  rw [validateForm_eq, nameBlur_eq, emailBlur_eq, messageBlur_eq]
  simp only [errorView_settle]
  exact ⟨⟨rfl, rfl, rfl⟩, rfl, rfl, rfl⟩

/-- C8: `showError` applied twice with the same message gives the state it gives
when applied once, `clearError` applied twice gives the state it gives when
applied once, and `clearError` on a field that is already clear (no `error`
class, no `show` class, empty error text) changes nothing. -/
theorem error_presentation_idempotent :
    (∀ (input : Input) (e : Element) (m : JSString),
      showError (showError input e m).1 (showError input e m).2 m = showError input e m) ∧
    (∀ (input : Input) (e : Element),
      clearError (clearError input e).1 (clearError input e).2 = clearError input e) ∧
    (∀ (input : Input) (e : Element),
      errorView input e = (false, false, []) → clearError input e = (input, e)) := by
  refine ⟨?_, ?_, ?_⟩
  · intro input e m
    simp [showError, classListAdd_idem]
  · intro input e
    simp [clearError, classListRemove_idem]
  · intro input e h
    obtain ⟨v, ⟨pc, pt⟩⟩ := input
    obtain ⟨ec, et⟩ := e
    simp only [errorView, hasClass, Prod.mk.injEq] at h
    obtain ⟨h1, h2, h3⟩ := h
    subst h3
    simp [clearError, classListRemove_of_not_contains _ _ h1,
      classListRemove_of_not_contains _ _ h2]

theorem error_presentation_idempotent_witness :
    errorView (freshPage (utf16 "Jane") [] []).nameInput
      (freshPage (utf16 "Jane") [] []).nameError = (false, false, []) ∧
    clearError (freshPage (utf16 "Jane") [] []).nameInput
      (freshPage (utf16 "Jane") [] []).nameError =
      ((freshPage (utf16 "Jane") [] []).nameInput, (freshPage (utf16 "Jane") [] []).nameError) :=
  ⟨by decide, error_presentation_idempotent.2.2 _ _ (by decide)⟩

/-- C9: the blur handler of the name field leaves the three values, the email and
message fields with their error elements, the success banner, the clock, the
pending callbacks and the console as they were, and when the trimmed name has
fewer than 2 code units (in particular for the empty name) it puts the name
field in the error state with `Name must be at least 2 characters`. The blur
handlers of the email and message fields behave in the same way on their
fields. -/
theorem blur_changes_own_field_only (p : Page) :
    ((nameBlur p).nameInput.value = p.nameInput.value ∧
      (nameBlur p).emailInput = p.emailInput ∧ (nameBlur p).emailError = p.emailError ∧
      (nameBlur p).messageInput = p.messageInput ∧
      (nameBlur p).messageError = p.messageError ∧
      (nameBlur p).formMessage = p.formMessage ∧ (nameBlur p).now = p.now ∧
      (nameBlur p).timers = p.timers ∧ (nameBlur p).console = p.console ∧
      ((trim p.nameInput.value).length < 2 →
        errorView (nameBlur p).nameInput (nameBlur p).nameError =
          (true, true, utf16 "Name must be at least 2 characters")) ∧
      (p.nameInput.value = [] →
        errorView (nameBlur p).nameInput (nameBlur p).nameError =
          (true, true, utf16 "Name must be at least 2 characters"))) ∧
    ((emailBlur p).emailInput.value = p.emailInput.value ∧
      (emailBlur p).nameInput = p.nameInput ∧ (emailBlur p).nameError = p.nameError ∧
      (emailBlur p).messageInput = p.messageInput ∧
      (emailBlur p).messageError = p.messageError ∧
      (emailBlur p).formMessage = p.formMessage ∧ (emailBlur p).now = p.now ∧
      (emailBlur p).timers = p.timers ∧ (emailBlur p).console = p.console ∧
      (isValidEmail (trim p.emailInput.value) = false →
        errorView (emailBlur p).emailInput (emailBlur p).emailError =
          (true, true, utf16 "Please enter a valid email address"))) ∧
    ((messageBlur p).messageInput.value = p.messageInput.value ∧
      (messageBlur p).nameInput = p.nameInput ∧ (messageBlur p).nameError = p.nameError ∧
      (messageBlur p).emailInput = p.emailInput ∧
      (messageBlur p).emailError = p.emailError ∧
      (messageBlur p).formMessage = p.formMessage ∧ (messageBlur p).now = p.now ∧
      (messageBlur p).timers = p.timers ∧ (messageBlur p).console = p.console ∧
      ((trim p.messageInput.value).length < 10 →
        errorView (messageBlur p).messageInput (messageBlur p).messageError =
          (true, true, utf16 "Message must be at least 10 characters"))) := by
  rw [nameBlur_eq, emailBlur_eq, messageBlur_eq]
  simp only [errorView_settle, settle_value]
  refine ⟨⟨trivial, trivial, trivial, trivial, trivial, trivial, trivial, trivial, trivial, ?_, ?_⟩,
    ⟨trivial, trivial, trivial, trivial, trivial, trivial, trivial, trivial, trivial, ?_⟩,
    ⟨trivial, trivial, trivial, trivial, trivial, trivial, trivial, trivial, trivial, ?_⟩⟩
  · intro h
    have : nameOk p = false := by simpa [nameOk] using h
    simp [this, nameMessage]
  · intro h
    have : nameOk p = false := by unfold nameOk; rw [h]; decide
    simp [this, nameMessage]
  · intro h
    have : emailOk p = false := h
    simp [this, emailMessage]
  · intro h
    have : messageOk p = false := by simpa [messageOk] using h
    simp [this, messageMessage]

theorem blur_changes_own_field_only_witness :
    (freshPage [] (utf16 "jane@example.com") (utf16 "short")).nameInput.value = [] ∧
    errorView (nameBlur (freshPage [] (utf16 "jane@example.com") (utf16 "short"))).nameInput
      (nameBlur (freshPage [] (utf16 "jane@example.com") (utf16 "short"))).nameError =
      (true, true, utf16 "Name must be at least 2 characters") ∧
    errorView (nameBlur (freshPage [] (utf16 "jane@example.com") (utf16 "short"))).emailInput
      (nameBlur (freshPage [] (utf16 "jane@example.com") (utf16 "short"))).emailError =
      (false, false, []) ∧
    errorView (nameBlur (freshPage [] (utf16 "jane@example.com") (utf16 "short"))).messageInput
      (nameBlur (freshPage [] (utf16 "jane@example.com") (utf16 "short"))).messageError =
      (false, false, []) :=
  ⟨rfl,
    (blur_changes_own_field_only
      (freshPage [] (utf16 "jane@example.com") (utf16 "short"))).1.2.2.2.2.2.2.2.2.2.2 rfl,
    by decide, by decide⟩

/-- C3: when all three fields pass their rules, the submit handler sets the
success text to `Thank you `, the trimmed name and `! I'll get back to you soon.`,
puts the classes `show` and `success` on the banner, logs the record of the three
trimmed values as they were before the reset, empties the three values and
leaves the three fields clear of errors. -/
theorem accepted_submission (p : Page) (hn : 2 ≤ (trim p.nameInput.value).length)
    (he : isValidEmail (trim p.emailInput.value) = true)
    (hm : 10 ≤ (trim p.messageInput.value).length) :
    (submitHandler p).formMessage.textContent =
      utf16 "Thank you " ++ trim p.nameInput.value ++ utf16 "! I'll get back to you soon." ∧
    bannerShown (submitHandler p) = true ∧
    hasClass (submitHandler p).formMessage (utf16 "success") = true ∧
    (submitHandler p).console = p.console ++
      [{ name := trim p.nameInput.value, email := trim p.emailInput.value,
         message := trim p.messageInput.value }] ∧
    (submitHandler p).nameInput.value = [] ∧
    (submitHandler p).emailInput.value = [] ∧
    (submitHandler p).messageInput.value = [] ∧
    errorView (submitHandler p).nameInput (submitHandler p).nameError = (false, false, []) ∧
    errorView (submitHandler p).emailInput (submitHandler p).emailError = (false, false, []) ∧
    errorView (submitHandler p).messageInput (submitHandler p).messageError
      = (false, false, []) := by
  have h1 : nameOk p = true := by simpa [nameOk] using hn
  have h2 : emailOk p = true := he
  have h3 : messageOk p = true := by simpa [messageOk] using hm
  have hall : (nameOk p && emailOk p && messageOk p) = true := by simp [h1, h2, h3]
  rw [submitHandler_accept p hall, validateForm_eq]
  have e1 := errorView_settle true p.nameInput p.nameError nameMessage
  have e2 := errorView_settle true p.emailInput p.emailError emailMessage
  have e3 := errorView_settle true p.messageInput p.messageError messageMessage
  simp only [errorView] at e1 e2 e3
  refine ⟨rfl, ?_, ?_, rfl, rfl, rfl, rfl, ?_, ?_, ?_⟩
  · exact contains_classListAdd_of_contains _ _ _ (contains_classListAdd _ _)
  · exact contains_classListAdd _ _
  · simpa [errorView, formReset, h1] using e1
  · simpa [errorView, formReset, h2] using e2
  · simpa [errorView, formReset, h3] using e3

theorem accepted_submission_witness :
    (submitHandler (stalePage (utf16 "Jane Doe") (utf16 "jane@example.com")
      (utf16 "Hello, I would like to connect."))).formMessage.textContent =
      utf16 "Thank you Jane Doe! I'll get back to you soon." ∧
    bannerShown (submitHandler (stalePage (utf16 "Jane Doe") (utf16 "jane@example.com")
      (utf16 "Hello, I would like to connect."))) = true ∧
    (submitHandler (stalePage (utf16 "Jane Doe") (utf16 "jane@example.com")
      (utf16 "Hello, I would like to connect."))).nameInput.value = [] :=
  ⟨(accepted_submission
      (stalePage (utf16 "Jane Doe") (utf16 "jane@example.com")
        (utf16 "Hello, I would like to connect."))
      (by decide) (by decide) (by decide)).1,
    (accepted_submission
      (stalePage (utf16 "Jane Doe") (utf16 "jane@example.com")
        (utf16 "Hello, I would like to connect."))
      (by decide) (by decide) (by decide)).2.1,
    (accepted_submission
      (stalePage (utf16 "Jane Doe") (utf16 "jane@example.com")
        (utf16 "Hello, I would like to connect."))
      (by decide) (by decide) (by decide)).2.2.2.2.1⟩

/-- C6: the submit handler logs a record exactly when all three fields pass
their rules, and the record holds the three trimmed values; when a field fails,
nothing is logged, the banner, the pending callbacks and the clock are as they
were, and the three values are what the user entered. -/
theorem record_only_when_valid (p : Page) :
    (nameOk p = true ∧ emailOk p = true ∧ messageOk p = true →
      (submitHandler p).console = p.console ++
        [{ name := trim p.nameInput.value, email := trim p.emailInput.value,
           message := trim p.messageInput.value }]) ∧
    (¬ (nameOk p = true ∧ emailOk p = true ∧ messageOk p = true) →
      (submitHandler p).console = p.console ∧
      (submitHandler p).formMessage = p.formMessage ∧
      (submitHandler p).timers = p.timers ∧
      (submitHandler p).now = p.now ∧
      (submitHandler p).nameInput.value = p.nameInput.value ∧
      (submitHandler p).emailInput.value = p.emailInput.value ∧
      (submitHandler p).messageInput.value = p.messageInput.value) ∧
    ((submitHandler p).console.length = p.console.length + 1 ↔
      (nameOk p = true ∧ emailOk p = true ∧ messageOk p = true)) := by
  by_cases h : (nameOk p && emailOk p && messageOk p) = true
  · have h' : nameOk p = true ∧ emailOk p = true ∧ messageOk p = true := by
      simpa [and_assoc] using h
    rw [submitHandler_accept p h]
    exact ⟨fun _ => rfl, fun hne => absurd h' hne, by simp [h']⟩
  · have h' : ¬ (nameOk p = true ∧ emailOk p = true ∧ messageOk p = true) := by
      simpa [and_assoc] using h
    rw [submitHandler_reject p (by simpa using h), validateForm_eq]
    refine ⟨fun hv => absurd hv h', fun _ => ⟨rfl, rfl, rfl, rfl, ?_, ?_, ?_⟩, ?_⟩
    · exact settle_value _ _ _ _
    · exact settle_value _ _ _ _
    · exact settle_value _ _ _ _
    · constructor
      · intro hl
        simp at hl
      · intro hv
        exact absurd hv h'

theorem record_only_when_valid_witness :
    ¬ (nameOk (run (freshPage (utf16 "Jane Doe") (utf16 "jane@example.com")
          (utf16 "Hello, I would like to connect.")) [.submit, .typeName (utf16 "A")]) = true ∧
        emailOk (run (freshPage (utf16 "Jane Doe") (utf16 "jane@example.com")
          (utf16 "Hello, I would like to connect.")) [.submit, .typeName (utf16 "A")]) = true ∧
        messageOk (run (freshPage (utf16 "Jane Doe") (utf16 "jane@example.com")
          (utf16 "Hello, I would like to connect.")) [.submit, .typeName (utf16 "A")]) = true) ∧
    (submitHandler (run (freshPage (utf16 "Jane Doe") (utf16 "jane@example.com")
        (utf16 "Hello, I would like to connect.")) [.submit, .typeName (utf16 "A")])).console =
      (run (freshPage (utf16 "Jane Doe") (utf16 "jane@example.com")
        (utf16 "Hello, I would like to connect.")) [.submit, .typeName (utf16 "A")]).console ∧
    (submitHandler (run (freshPage (utf16 "Jane Doe") (utf16 "jane@example.com")
        (utf16 "Hello, I would like to connect.")) [.submit, .typeName (utf16 "A")])).timers =
      [5000] :=
  ⟨by decide,
    ((record_only_when_valid (run (freshPage (utf16 "Jane Doe") (utf16 "jane@example.com")
        (utf16 "Hello, I would like to connect.")) [.submit, .typeName (utf16 "A")])).2.1
      (by decide)).1,
    by decide⟩

/-- C10, as the spec states it, fails: after an accepted submission at time 0 and
a second accepted submission at time 3000, the callback of the first one hides
the banner at time 5000, only 2000 time units after the second submission. -/
theorem banner_lifetime_counterexample :
    ¬ (∀ (before after : List Event) (p : Page),
        p = run (freshPage [] [] []) before →
        nameOk p = true → emailOk p = true → messageOk p = true →
        duration after < 5000 → bannerShown (run (submitHandler p) after) = true) := by
  intro h
  have h' := h
    [.typeName (utf16 "Jane Doe"), .typeEmail (utf16 "jane@example.com"),
      .typeMessage (utf16 "Hello, I would like to connect."), .submit, .wait 3000,
      .typeName (utf16 "Jane Doe"), .typeEmail (utf16 "jane@example.com"),
      .typeMessage (utf16 "Hello again, one more thing.")]
    [.wait 2000] _ rfl (by decide) (by decide) (by decide) (by decide)
  revert h'
  decide

/-- C10, amended: an accepted submission at time `t` shows the banner and
schedules a hide callback due at `t + 5000`. Through every later sequence of
events that takes less than 5000 time units the banner stays shown, provided no
callback that was already pending falls due in that time; and the banner is
hidden when the clock, having not yet reached `t + 5000`, advances to
`t + 5000` or beyond. -/
theorem banner_lifetime (p : Page) (hn : nameOk p = true) (he : emailOk p = true)
    (hm : messageOk p = true) :
    bannerShown (submitHandler p) = true ∧
    (p.now + 5000) ∈ (submitHandler p).timers ∧
    (∀ es : List Event, duration es < 5000 →
      (∀ due ∈ p.timers, p.now + duration es < due) →
      bannerShown (run (submitHandler p) es) = true) ∧
    (∀ (es : List Event) (d : Nat), duration es < 5000 → 5000 ≤ duration es + d →
      bannerShown (advance d (run (submitHandler p) es)) = false) := by
  have hall : (nameOk p && emailOk p && messageOk p) = true := by simp [hn, he, hm]
  obtain ⟨hnow, -, htimers⟩ := submitHandler_frame p
  have hT : (p.now + 5000) ∈ (submitHandler p).timers :=
    (htimers _).2 (Or.inr ⟨hall, rfl⟩)
  have hshown : bannerShown (submitHandler p) = true := by
    rw [submitHandler_accept p hall]
    exact contains_classListAdd_of_contains _ _ _ (contains_classListAdd _ _)
  refine ⟨hshown, hT, fun es hd hpend => ?_, fun es d hd hge => ?_⟩
  · refine run_shown es (submitHandler p) hshown hd fun due hdue => ?_
    rw [hnow]
    rcases (htimers due).1 hdue with h | ⟨-, h⟩
    · exact hpend due h
    · omega
  · refine advance_hides _ d (p.now + 5000)
      (run_keeps_timer es (submitHandler p) _ hT (by rw [hnow]; omega)) ?_
    rw [run_now, hnow]
    omega

theorem banner_lifetime_witness :
    bannerShown (run (submitHandler (freshPage (utf16 "Jane Doe") (utf16 "jane@example.com")
      (utf16 "Hello, I would like to connect."))) [.wait 4999]) = true ∧
    bannerShown (advance 5000 (run (submitHandler (freshPage (utf16 "Jane Doe")
      (utf16 "jane@example.com") (utf16 "Hello, I would like to connect."))) [])) = false :=
  ⟨(banner_lifetime
      (freshPage (utf16 "Jane Doe") (utf16 "jane@example.com")
        (utf16 "Hello, I would like to connect."))
      (by decide) (by decide) (by decide)).2.2.1 [.wait 4999] (by decide)
      (fun due hdue => absurd hdue (List.not_mem_nil due)),
    (banner_lifetime
      (freshPage (utf16 "Jane Doe") (utf16 "jane@example.com")
        (utf16 "Hello, I would like to connect."))
      (by decide) (by decide) (by decide)).2.2.2 [] 5000 (by decide) (by decide)⟩

end Portfolio
